import Mathlib

/-
  Verification development for the ssv repository excerpt.

  Shallow embedding of:
  - the signer storage (package ekm): wallet/account persistence with optional
    AES-GCM encryption-at-rest, and the highest-proposal slashing-protection
    records;
  - the validator registry storage (package storage): ValidatorInformation
    catalog with monotonic index assignment and range listing;
  - the validator runtime (package validator) and the qbft controller map.

  Go byte slices are modelled as `List Nat`; Go strings as their byte lists.
  External cryptographic primitives (md5, AES-GCM from the Go standard
  library) are modelled symbolically as an ideal hash / ideal AEAD: sealing
  under a key and nonce produces a blob that opens to the original plaintext
  exactly under the same key and nonce, and fails to open otherwise.
-/

/-- Go byte slices (and Go strings, which are byte strings) as lists of naturals. -/
abbrev Bytes := List Nat

/-- Byte list of a Lean string literal, used for the Go string constants. -/
def strBytes (s : String) : Bytes := s.toList.map Char.toNat

/-- gcm.NonceSize() of the Go standard AES-GCM: 12 bytes. -/
def gcmNonceSize : Nat := 12

/-- createHash (source: md5 hex digest of the passphrase, a 32-byte AES key).
md5 is external crypto, modelled as an ideal (injective) digest. -/
def createHash (key : Bytes) : Bytes := key

/-- gcm.Seal of the Go standard library, modelled as an ideal AEAD: the sealed
blob records the plaintext length, the plaintext, the key and the nonce. -/
def gcmSeal (key : Bytes) (nonce : Bytes) (data : Bytes) : Bytes :=
  data.length :: (data ++ key ++ nonce)

/-- gcm.Open of the Go standard library, modelled as an ideal AEAD: opening
succeeds exactly when the blob was sealed under the same key and nonce. -/
def gcmOpen (key : Bytes) (nonce : Bytes) (ct : Bytes) : Option Bytes :=
  match ct with
  | [] => none
  | n :: rest =>
    if rest.length = n + key.length + nonce.length ∧ rest.drop n = key ++ nonce then
      some (rest.take n)
    else
      none

/-- Error values of the embedded storage code (the Go error messages and
errors.Wrap chains, as named constructors). -/
inductive StoreErr
  /-- errors.New "malformed ciphertext" (decrypt, input shorter than the nonce) -/
  | malformedCiphertext
  /-- the error returned by gcm.Open on a key/nonce mismatch -/
  | gcmAuthFailed
  /-- errors.New "account not found" (OpenAccount) -/
  | accountNotFound
  /-- errors.New "bytes are empty" (decodeAccount) -/
  | bytesEmpty
  /-- errors.New "pubKey must not be nil" -/
  | pubKeyNil
  /-- errors.New "invalid proposal slot, slot could not be 0" -/
  | invalidSlot
  /-- errors.Wrap "highest proposal value is empty" -/
  | emptyValue
  /-- errors.Wrap(err, "failed to decrypt wallet") in decryptData -/
  | failedToDecrypt (e : StoreErr)
  /-- errors.Wrap(ErrCantDecrypt, err.Error()) in OpenAccount -/
  | cantDecrypt (e : StoreErr)
deriving DecidableEq, Repr

/-- encrypt (source): derives the AES key with createHash, draws a random
nonce of gcm.NonceSize() bytes, and returns gcm.Seal(nonce, nonce, data) —
the nonce prepended to the sealed blob. The random nonce is an explicit
argument here; the source's only error paths (bad key size, rand failure)
cannot occur since createHash always yields a valid key. -/
def encrypt (data : Bytes) (passphrase : Bytes) (nonce : Bytes) : Bytes :=
  nonce ++ gcmSeal (createHash passphrase) nonce data

/-- decrypt (source): rejects inputs shorter than the nonce size as
"malformed ciphertext", otherwise splits off the nonce and opens the rest. -/
def decrypt (data : Bytes) (passphrase : Bytes) : Except StoreErr Bytes :=
  let key := createHash passphrase
  if data.length < gcmNonceSize then
    Except.error StoreErr.malformedCiphertext
  else
    match gcmOpen key (data.take gcmNonceSize) (data.drop gcmNonceSize) with
    | some plaintext => Except.ok plaintext
    | none => Except.error StoreErr.gcmAuthFailed

/-- Key-value entries of the badger-backed store: (collection, key) to value. -/
def dbGet : List ((Bytes × Bytes) × Bytes) → Bytes × Bytes → Option Bytes
  | [], _ => none
  | (k, v) :: rest, q => if k = q then some v else dbGet rest q

/-- The external key-value store, used only through its get/set contract. -/
structure DB where
  entries : List ((Bytes × Bytes) × Bytes)
deriving DecidableEq, Repr

def DB.get (d : DB) (pfx key : Bytes) : Option Bytes :=
  dbGet d.entries (pfx, key)

def DB.set (d : DB) (pfx key value : Bytes) : DB :=
  ⟨((pfx, key), value) :: d.entries⟩

/-- the signer storage struct (ekm): db handle, beacon network name, and the
process-wide optional encryption key (empty list = unset, Go empty string). -/
structure SignerStorage where
  db : DB
  network : Bytes
  encryptionKey : Bytes
deriving DecidableEq, Repr

def walletPfx : Bytes := strBytes "signer_data-wallet-"
def walletPath : Bytes := strBytes "wallet"
def accountsPfx : Bytes := strBytes "signer_data-accounts-"
def accountsPath (accountID : Bytes) : Bytes := strBytes "accounts_" ++ accountID
def highestAttPfx : Bytes := strBytes "signer_data-highest_att-"
def highestPropPfx : Bytes := strBytes "signer_data-highest_prop-"

/-- objPrefix (source): network name concatenated with the object collection. -/
def objPfx (s : SignerStorage) (obj : Bytes) : Bytes := s.network ++ obj

/-- SetEncryptionKey (source): replaces the process-wide encryption key. -/
def SetEncryptionKey (s : SignerStorage) (newKey : Bytes) : SignerStorage :=
  { s with encryptionKey := newKey }

/-- encryptData (source): encrypt only when the encryption key is set,
otherwise pass the value through in the clear. -/
def encryptData (s : SignerStorage) (objectValue : Bytes) (nonce : Bytes) : Bytes :=
  if s.encryptionKey ≠ [] then encrypt objectValue s.encryptionKey nonce
  else objectValue

/-- decryptData (source): decrypt only when the encryption key is set,
wrapping failures as "failed to decrypt wallet"; otherwise pass through. -/
def decryptData (s : SignerStorage) (objectValue : Bytes) : Except StoreErr Bytes :=
  if s.encryptionKey ≠ [] then
    match decrypt objectValue s.encryptionKey with
    | Except.ok d => Except.ok d
    | Except.error e => Except.error (StoreErr.failedToDecrypt e)
  else
    Except.ok objectValue

/-- SaveWallet (source): marshals the wallet (the wallet value is modelled by
its JSON bytes) and writes it under the wallet collection. Note the source
stores the marshalled bytes directly, without calling encryptData. -/
def SaveWallet (s : SignerStorage) (walletData : Bytes) : SignerStorage × Option StoreErr :=
  ({ s with db := s.db.set (objPfx s walletPfx) walletPath walletData }, none)

/-- SaveAccount (source): marshals the account (modelled by its JSON bytes),
runs the value through encryptData, and writes it under the account key. -/
def SaveAccount (s : SignerStorage) (accountID : Bytes) (accountData : Bytes)
    (nonce : Bytes) : SignerStorage × Option StoreErr :=
  let key := accountsPath accountID
  let encryptedValue := encryptData s accountData nonce
  ({ s with db := s.db.set (objPfx s accountsPfx) key encryptedValue }, none)

/-- decodeAccount (source): rejects empty bytes, otherwise unmarshals (the
account value is modelled by its JSON bytes, so decoding is the identity). -/
def decodeAccount (byts : Bytes) : Except StoreErr Bytes :=
  if byts = [] then Except.error StoreErr.bytesEmpty else Except.ok byts

/-- OpenAccount (source): reads the account blob, runs decryptData — wrapping
any failure in ErrCantDecrypt — and decodes the result. -/
def OpenAccount (s : SignerStorage) (accountID : Bytes) : Except StoreErr Bytes :=
  let key := accountsPath accountID
  match s.db.get (objPfx s accountsPfx) key with
  | none => Except.error StoreErr.accountNotFound
  | some v =>
    match decryptData s v with
    | Except.error e => Except.error (StoreErr.cantDecrypt e)
    | Except.ok d => decodeAccount d

/-- ssz.MarshalUint64 (external): appends the 8-byte little-endian encoding. -/
def sszMarshalUint64 (buf : Bytes) (v : Nat) : Bytes :=
  buf ++ [v % 256, v / 256 % 256, v / 256 ^ 2 % 256, v / 256 ^ 3 % 256,
          v / 256 ^ 4 % 256, v / 256 ^ 5 % 256, v / 256 ^ 6 % 256, v / 256 ^ 7 % 256]

/-- ssz.UnmarshallUint64 (external): reads the first 8 bytes little-endian. -/
def sszUnmarshallUint64 (b : Bytes) : Nat :=
  b.getD 0 0 + 256 * (b.getD 1 0 + 256 * (b.getD 2 0 + 256 * (b.getD 3 0 +
    256 * (b.getD 4 0 + 256 * (b.getD 5 0 + 256 * (b.getD 6 0 + 256 * b.getD 7 0))))))

/-- SaveHighestProposal (source): nil public key and slot 0 are rejected
before anything is written; otherwise the slot is stored little-endian.
A nil Go slice is modelled as `none`, a non-nil slice as `some bytes`. -/
def SaveHighestProposal (s : SignerStorage) (pubKey : Option Bytes) (slot : Nat) :
    SignerStorage × Option StoreErr :=
  match pubKey with
  | none => (s, some StoreErr.pubKeyNil)
  | some pk =>
    if slot = 0 then (s, some StoreErr.invalidSlot)
    else
      ({ s with db := s.db.set (objPfx s highestPropPfx) pk (sszMarshalUint64 [] slot) }, none)

/-- result triple of RetrieveHighestProposal: (slot, found, err). -/
structure RetrieveRes where
  slot : Nat
  found : Bool
  err : Option StoreErr
deriving DecidableEq, Repr

/-- RetrieveHighestProposal (source): nil key rejected; missing record returns
(0, false, nil); an empty stored value is an error; otherwise decode. -/
def RetrieveHighestProposal (s : SignerStorage) (pubKey : Option Bytes) : RetrieveRes :=
  match pubKey with
  | none => ⟨0, false, some StoreErr.pubKeyNil⟩
  | some pk =>
    match s.db.get (objPfx s highestPropPfx) pk with
    | none => ⟨0, false, none⟩
    | some v =>
      if v = [] then ⟨0, true, some StoreErr.emptyValue⟩
      else ⟨sszUnmarshallUint64 v, true, none⟩

/-- OperatorNodeLink (source): links a validator to an operator. -/
structure OperatorNodeLink where
  id : Nat
  publicKey : Bytes
deriving DecidableEq, Repr

/-- ValidatorInformation (source): persisted catalog record of a validator. -/
structure ValidatorInformation where
  index : Int
  publicKey : Bytes
  operators : List OperatorNodeLink
deriving DecidableEq, Repr

def validatorsPfx : Bytes := strBytes "validators"

/-- validatorKey (source): bytes.Join of the validators collection name and
the public key, separated by a slash. -/
def validatorKey (pubKey : Bytes) : Bytes :=
  validatorsPfx ++ strBytes "/" ++ pubKey

/-- Lookup in the validators collection (db.Get by full key; the JSON value
is modelled structurally, json Marshal/Unmarshal being its identity). -/
def regGet : List (Bytes × ValidatorInformation) → Bytes → Option ValidatorInformation
  | [], _ => none
  | (k, v) :: rest, q => if k = q then some v else regGet rest q

/-- the registry storage struct: the validators collection plus the index
counter. The counter stands for the nextIndex source of monotonic indices. -/
structure RegStorage where
  validators : List (Bytes × ValidatorInformation)
  counter : Int
deriving DecidableEq, Repr

/-- getValidatorInformationNotSafe (source): db.Get of the validator record. -/
def getValidatorInformationNotSafe (s : RegStorage) (validatorPubKey : Bytes) :
    Option ValidatorInformation :=
  regGet s.validators (validatorKey validatorPubKey)

/-- GetValidatorInformation (source): the same lookup under the read lock. -/
def GetValidatorInformation (s : RegStorage) (validatorPubKey : Bytes) :
    Option ValidatorInformation :=
  getValidatorInformationNotSafe s validatorPubKey

/-- Modelled from the spec: nextIndex is repository code not under src/.
Spec: "index: int64 assigned monotonically at first save". Modelled as a
monotone counter strictly above every index assigned so far. -/
def nextIndex (s : RegStorage) : Int := s.counter

/-- saveValidatorNotSafe (source): marshals the record and writes it under
validatorKey of its public key. -/
def saveValidatorNotSafe (s : RegStorage) (val : ValidatorInformation) : RegStorage :=
  { s with validators := (validatorKey val.publicKey, val) :: s.validators }

/-- result of SaveValidatorInformation: the new store state, the caller's
argument record after the call (the source mutates its Index field), and
whether an error was returned (nil error = false). -/
structure SaveVIResult where
  state : RegStorage
  arg : ValidatorInformation
  errored : Bool
deriving DecidableEq, Repr

/-- SaveValidatorInformation (source): if the public key is already stored,
only the argument's Index field is set to the stored index and nil is
returned; otherwise the next monotonic index is assigned and the record is
written. -/
def SaveValidatorInformation (s : RegStorage) (vi : ValidatorInformation) : SaveVIResult :=
  match getValidatorInformationNotSafe s vi.publicKey with
  | some info => ⟨s, { vi with index := info.index }, false⟩
  | none =>
    let vi' := { vi with index := nextIndex s }
    ⟨{ saveValidatorNotSafe s vi' with counter := s.counter + 1 }, vi', false⟩

def maxInt64 : Int := 2 ^ 63 - 1

/-- Modelled from the spec: normalTo is repository code not under src/.
Spec: "an upper bound of zero means no upper bound"; zero maps to the
largest int64, any other bound is kept. -/
def normalTo (toIdx : Int) : Int := if toIdx = 0 then maxInt64 else toIdx

/-- ListValidators (source): iterates the validators collection and keeps the
records whose index lies in [fromIdx, normalTo to]. -/
def ListValidators (s : RegStorage) (fromIdx : Int) (toIdx : Int) : List ValidatorInformation :=
  let t := normalTo toIdx
  (s.validators.map Prod.snd).filter (fun vi => decide (fromIdx ≤ vi.index) && decide (vi.index ≤ t))

/-- duty role of an identifier. Modelled from the spec: the message.RoleType
enumeration is not under src/; spec lists the duty roles "attester,
proposer, ..." with aggregation duties alongside. -/
inductive RoleType
  | attester
  | aggregator
  | proposer
deriving DecidableEq, Repr

/-- message.Identifier: composite key (validator public key, duty role). -/
structure Identifier where
  pubKey : Bytes
  role : RoleType
deriving DecidableEq, Repr

def Identifier.GetRoleType (i : Identifier) : RoleType := i.role

/-- a qbft controller handle, identified by its role and identifier. -/
structure IController where
  role : RoleType
  identifier : Identifier
deriving DecidableEq, Repr

/-- read of the Go Controllers map: a missing role yields nil. -/
def ctrlLookup : List (RoleType × IController) → RoleType → Option IController
  | [], _ => none
  | (r, ctrl) :: rest, q => if r = q then some ctrl else ctrlLookup rest q

/-- ControllerForIdentifier (source, controller/types.go): looks the
identifier's role up in the Controllers map. -/
def ControllerForIdentifier (c : List (RoleType × IController)) (identifier : Identifier) :
    Option IController :=
  ctrlLookup c identifier.GetRoleType

/-- setupIbftController (source): builds the controller for a role with the
identifier derived from the share public key and the role name. -/
def setupIbftController (role : RoleType) (sharePubKey : Bytes) : IController :=
  ⟨role, ⟨sharePubKey, role⟩⟩

/-- setupIbfts (source): the Controllers map built at validator construction.
The source inserts only the attester role. -/
def setupIbfts (sharePubKey : Bytes) : List (RoleType × IController) :=
  [(RoleType.attester, setupIbftController RoleType.attester sharePubKey)]

/-- message.SSVMessage type tag: consensus, post-consensus or sync. -/
inductive MsgType
  | consensus
  | postConsensus
  | sync
deriving DecidableEq, Repr

/-- message.SSVMessage: typed wire envelope with identifier and payload. -/
structure SSVMessage where
  msgType : MsgType
  identifier : Identifier
  data : Bytes
deriving DecidableEq, Repr

def SSVMessage.GetType (m : SSVMessage) : MsgType := m.msgType

def SSVMessage.GetIdentifier (m : SSVMessage) : Identifier := m.identifier

/-- Modelled from the spec: validateMessage, SignedMessage.Decode and the
processConsensusMsg / processPostConsensusSig handlers are repository code
not under src/. Their outcomes enter messageHandler as oracle fields; per
the spec, payload decoding fails closed. -/
structure HandlerEnv where
  validateOk : Bool
  decodeOk : Bool
  processOk : Bool
deriving DecidableEq, Repr

/-- outcome of messageHandler: a normal return (with or without a non-nil
error value) or a Go panic. -/
inductive HandlerResult
  | returned (errored : Bool)
  | panicked
deriving DecidableEq, Repr

/-- messageHandler (source, validator.go:123-151): validation failures are
logged and nil is returned; consensus and post-consensus payloads are
decoded (a decode failure is returned as an error) and dispatched; the sync
branch is unimplemented and panics. -/
def messageHandler (env : HandlerEnv) (msg : SSVMessage) : HandlerResult :=
  if env.validateOk then
    match msg.GetType with
    | MsgType.consensus =>
      if env.decodeOk then HandlerResult.returned (!env.processOk)
      else HandlerResult.returned true
    | MsgType.postConsensus =>
      if env.decodeOk then HandlerResult.returned (!env.processOk)
      else HandlerResult.returned true
    | MsgType.sync => HandlerResult.panicked
  else
    HandlerResult.returned false

/-- what the caller of ProcessMsg observes: a normal return (ProcessMsg has
no return values, so any handler error is dropped) or a propagated panic. -/
inductive ProcessOutcome
  | returned
  | panicked
deriving DecidableEq, Repr

/-- ProcessMsg in read-mode (source, validator.go:102-111): calls
messageHandler synchronously and returns regardless of its error. -/
def processMsgRead (env : HandlerEnv) (msg : SSVMessage) : ProcessOutcome :=
  match messageHandler env msg with
  | HandlerResult.returned _ => ProcessOutcome.returned
  | HandlerResult.panicked => ProcessOutcome.panicked

/-- Modelled from the spec: the QBFT Instance decide path is repository code
not under src/. Spec: "on reaching quorum of commits, marks decided and
returns the decided value plus signer set, exactly once; ignores (accepts
without effect) late-arriving duplicate votes from the same round after
decision". State: the decided flag, the distinct committed signers of the
current round and value, and the quorum size. -/
structure QbftInstance where
  decided : Bool
  commits : List Nat
  quorum : Nat
deriving DecidableEq, Repr

/-- processing of one commit message by the instance: once decided, further
votes are accepted without effect and decided-ness is not reported again;
otherwise the signer is tallied and, on reaching quorum, the instance marks
decided and reports it (the returned Bool). -/
def processCommit (st : QbftInstance) (signer : Nat) : QbftInstance × Bool :=
  if st.decided then (st, false)
  else
    let commits := if signer ∈ st.commits then st.commits else signer :: st.commits
    if st.quorum ≤ commits.length then ({ st with decided := true, commits := commits }, true)
    else ({ st with commits := commits }, false)

/-- a sequence of commit messages processed in arrival order through the
instance, counting how many of them reported decided-ness to the caller. -/
def runCommits (st : QbftInstance) : List Nat → QbftInstance × Nat
  | [] => (st, 0)
  | m :: ms =>
    let r := processCommit st m
    let rest := runCommits r.1 ms
    (rest.1, (if r.2 then 1 else 0) + rest.2)

theorem gcmOpen_gcmSeal (key nonce data : Bytes) :
    gcmOpen key nonce (gcmSeal key nonce data) = some data := by
  simp only [gcmOpen, gcmSeal, List.append_assoc]
  rw [if_pos ⟨by simp [Nat.add_assoc], List.drop_left' rfl⟩, List.take_left' rfl]

theorem gcmOpen_wrongKey (k1 k2 nonce data : Bytes) (h : k1 ≠ k2) :
    gcmOpen k2 nonce (gcmSeal k1 nonce data) = none := by
  simp only [gcmOpen, gcmSeal, List.append_assoc]
  rw [if_neg]
  rintro ⟨hlen, hdrop⟩
  rw [List.drop_left' rfl] at hdrop
  exact h (List.append_cancel_right hdrop)

theorem encrypt_not_short (data passphrase nonce : Bytes) (hn : nonce.length = gcmNonceSize) :
    ¬ (nonce ++ gcmSeal (createHash passphrase) nonce data).length < gcmNonceSize := by
  simp only [gcmSeal, List.length_append, List.length_cons, hn]
  omega

theorem decrypt_encrypt (data passphrase nonce : Bytes) (hn : nonce.length = gcmNonceSize) :
    decrypt (encrypt data passphrase nonce) passphrase = Except.ok data := by
  simp only [decrypt, encrypt, if_neg (encrypt_not_short data passphrase nonce hn)]
  rw [List.take_left' hn, List.drop_left' hn, gcmOpen_gcmSeal]

theorem decrypt_encrypt_wrongKey (data p1 p2 nonce : Bytes) (h : p1 ≠ p2)
    (hn : nonce.length = gcmNonceSize) :
    decrypt (encrypt data p1 nonce) p2 = Except.error StoreErr.gcmAuthFailed := by
  simp only [decrypt, encrypt, if_neg (encrypt_not_short data p1 nonce hn)]
  rw [List.take_left' hn, List.drop_left' hn,
    gcmOpen_wrongKey _ _ _ _ (by simpa [createHash] using h)]

theorem dbGet_set_same (d : DB) (pfx key value : Bytes) :
    (d.set pfx key value).get pfx key = some value := by
  simp [DB.set, DB.get, dbGet]

theorem runCommits_decided_eq_zero (msgs : List Nat) (st : QbftInstance)
    (h : st.decided = true) :
    (runCommits st msgs).2 = 0 := by
  induction msgs generalizing st with
  | nil => rfl
  | cons m ms ih =>
    have hpc : processCommit st m = (st, false) := by
      simp [processCommit, h]
    simp [runCommits, hpc, ih st h]

theorem processCommit_report_decides (st : QbftInstance) (m : Nat) :
    ((processCommit st m).2 = true → (processCommit st m).1.decided = true) ∧
    ((processCommit st m).2 = false → (processCommit st m).1.decided = st.decided) := by
  unfold processCommit
  split_ifs <;> simp_all <;> split_ifs <;> simp_all

/-- Claim C1: decided-ness is reported to the caller at most once per QBFT
instance — over any sequence of commit messages processed in arrival order by
an undecided instance, at most one message produces a decided report; after
the first deciding message, later valid commit messages are accepted without
effect and never cause a second report. (The instance decide path is
modelled from the spec; in validator.go itself ProcessMsg has its return
values commented out, so no second report can reach the caller there either.) -/
theorem qbftInstance_decided_reported_at_most_once (st : QbftInstance) (msgs : List Nat)
    (h : st.decided = false) :
    (runCommits st msgs).2 ≤ 1 := by
  induction msgs generalizing st with
  | nil => simp [runCommits]
  | cons m ms ih =>
    simp only [runCommits]
    rcases hrep : (processCommit st m).2 with _ | _
    · have hd : (processCommit st m).1.decided = false := by
        rw [(processCommit_report_decides st m).2 hrep, h]
      simpa [hrep] using ih (processCommit st m).1 hd
    · have hd : (processCommit st m).1.decided = true := (processCommit_report_decides st m).1 hrep
      have hz := runCommits_decided_eq_zero ms (processCommit st m).1 hd
      simp [hrep, hz]

/-- Claim C1, witness: an instance with quorum 2 processing five commit
messages reports decided-ness at most once. -/
theorem qbftInstance_decided_reported_at_most_once_witness :
    (⟨false, [], 2⟩ : QbftInstance).decided = false ∧
    (runCommits ⟨false, [], 2⟩ [1, 1, 2, 3, 4]).2 ≤ 1 :=
  ⟨rfl, qbftInstance_decided_reported_at_most_once ⟨false, [], 2⟩ [1, 1, 2, 3, 4] rfl⟩

/-- Claim C2, counterexample: in read-mode a well-formed SSVMessage of the
Sync type reaches messageHandler's unimplemented branch and panics, so the
claim that no well-formed message of any SSVMessage type causes a panic is
false on the code. -/
theorem readMode_sync_message_panics :
    processMsgRead ⟨true, true, true⟩ ⟨MsgType.sync, ⟨[], RoleType.attester⟩, []⟩
      = ProcessOutcome.panicked := rfl

/-- Claim C2 (amended): in read-mode every incoming SSVMessage is handled
synchronously inline and per-message errors are swallowed — the caller sees
a plain return for every Consensus or PostConsensus message, whatever the
validation, decode and dispatch outcomes; only the Sync message type hits
the unimplemented branch and panics. -/
theorem readMode_non_sync_returns (env : HandlerEnv) (msg : SSVMessage)
    (h : msg.GetType ≠ MsgType.sync) :
    processMsgRead env msg = ProcessOutcome.returned := by
  rcases env with ⟨v, d, p⟩
  rcases msg with ⟨ty, ident, data⟩
  cases ty <;> cases v <;> cases d <;> first | rfl | exact absurd rfl h

/-- Claim C2 (amended), witness: a consensus message in read-mode returns
normally even when its dispatch errors. -/
theorem readMode_non_sync_returns_witness :
    (⟨MsgType.consensus, ⟨[], RoleType.attester⟩, []⟩ : SSVMessage).GetType ≠ MsgType.sync ∧
    processMsgRead ⟨true, false, false⟩ ⟨MsgType.consensus, ⟨[], RoleType.attester⟩, []⟩
      = ProcessOutcome.returned :=
  ⟨by decide, readMode_non_sync_returns ⟨true, false, false⟩
    ⟨MsgType.consensus, ⟨[], RoleType.attester⟩, []⟩ (by decide)⟩

/-- Claim C3, counterexample: with an encryption key set, SaveWallet writes
the marshalled wallet bytes verbatim — the stored blob is the plaintext
itself, shorter than any nonce-prepended AES-GCM sealing, and decrypt
rejects it as malformed — so the claim that SaveWallet blobs are sealed when
a key is set is false on the code. -/
theorem saveWallet_clear_despite_key :
    (SaveWallet ⟨⟨[]⟩, [], [107]⟩ [1, 2, 3]).1.db.get
        (objPfx ⟨⟨[]⟩, [], [107]⟩ walletPfx) walletPath = some [1, 2, 3] ∧
    ([107] : Bytes) ≠ [] ∧
    ([1, 2, 3] : Bytes).length < gcmNonceSize ∧
    decrypt [1, 2, 3] [107] = Except.error StoreErr.malformedCiphertext :=
  ⟨rfl, by decide, by decide, rfl⟩

/-- Claim C3 (amended): when an encryption key is set, every account blob
stored by SaveAccount is AES-GCM sealed with the random nonce prepended to
the ciphertext, and stored in the clear when no key is set; wallet blobs
stored by SaveWallet are always written in the clear, key or no key. -/
theorem saveAccount_sealed_saveWallet_clear (s : SignerStorage)
    (accountID accountData nonce walletData : Bytes) :
    (SaveAccount s accountID accountData nonce).1.db.get (objPfx s accountsPfx)
        (accountsPath accountID)
      = some (if s.encryptionKey = [] then accountData
              else nonce ++ gcmSeal (createHash s.encryptionKey) nonce accountData) ∧
    (SaveWallet s walletData).1.db.get (objPfx s walletPfx) walletPath = some walletData := by
  constructor
  · by_cases hk : s.encryptionKey = []
    · simp [SaveAccount, encryptData, hk, objPfx, dbGet_set_same]
    · simp [SaveAccount, encryptData, encrypt, hk, objPfx, dbGet_set_same]
  · simpa [SaveWallet, objPfx] using dbGet_set_same _ _ _ _

/-- Claim C4: decrypt of encrypt under the same passphrase returns the
original payload; under a different passphrase it returns the
authentication-failure error, never corrupted plaintext; and OpenAccount on
a blob saved under one key and reopened under another surfaces the failure
wrapped in ErrCantDecrypt. -/
theorem encrypt_decrypt_roundtrip_wrong_key (s : SignerStorage)
    (data accountID p1 p2 nonce : Bytes)
    (hn : nonce.length = gcmNonceSize) (hne : p1 ≠ p2) (h1 : p1 ≠ []) (h2 : p2 ≠ []) :
    decrypt (encrypt data p1 nonce) p1 = Except.ok data ∧
    decrypt (encrypt data p1 nonce) p2 = Except.error StoreErr.gcmAuthFailed ∧
    OpenAccount (SetEncryptionKey
        (SaveAccount (SetEncryptionKey s p1) accountID data nonce).1 p2) accountID
      = Except.error (StoreErr.cantDecrypt (StoreErr.failedToDecrypt StoreErr.gcmAuthFailed)) := by
  refine ⟨decrypt_encrypt data p1 nonce hn, decrypt_encrypt_wrongKey data p1 p2 nonce hne hn, ?_⟩
  simp only [OpenAccount, SetEncryptionKey, SaveAccount, encryptData, decryptData, objPfx, h1,
    ne_eq, not_false_iff, if_true, h2]
  rw [dbGet_set_same]
  simp [decrypt_encrypt_wrongKey data p1 p2 nonce hne hn]

/-- Claim C4, witness: payload [1, 2] sealed under passphrase [5] with a
12-byte nonce round-trips, fails under passphrase [6], and OpenAccount
surfaces the ErrCantDecrypt wrap. -/
theorem encrypt_decrypt_roundtrip_wrong_key_witness :
    ([0, 0, 0, 0, 0, 0, 0, 0, 0, 0, 0, 0] : Bytes).length = gcmNonceSize ∧
    ([5] : Bytes) ≠ [6] ∧ ([5] : Bytes) ≠ [] ∧ ([6] : Bytes) ≠ [] ∧
    (decrypt (encrypt [1, 2] [5] [0, 0, 0, 0, 0, 0, 0, 0, 0, 0, 0, 0]) [5] = Except.ok [1, 2] ∧
     decrypt (encrypt [1, 2] [5] [0, 0, 0, 0, 0, 0, 0, 0, 0, 0, 0, 0]) [6]
       = Except.error StoreErr.gcmAuthFailed ∧
     OpenAccount (SetEncryptionKey
         (SaveAccount (SetEncryptionKey ⟨⟨[]⟩, [9], []⟩ [5]) [3] [1, 2]
           [0, 0, 0, 0, 0, 0, 0, 0, 0, 0, 0, 0]).1 [6]) [3]
       = Except.error (StoreErr.cantDecrypt (StoreErr.failedToDecrypt StoreErr.gcmAuthFailed))) :=
  ⟨rfl, by decide, by decide, by decide,
    encrypt_decrypt_roundtrip_wrong_key ⟨⟨[]⟩, [9], []⟩ [1, 2] [3] [5] [6]
      [0, 0, 0, 0, 0, 0, 0, 0, 0, 0, 0, 0] rfl (by decide) (by decide) (by decide)⟩

/-- Claim C5: for every non-nil public key, SaveHighestProposal with slot 0
fails with the invalid-slot error and leaves the storage untouched; saving
slot 100 and then retrieving returns (100, true, nil). -/
theorem saveHighestProposal_zero_rejected_roundtrip (s : SignerStorage) (pk : Bytes) :
    SaveHighestProposal s (some pk) 0 = (s, some StoreErr.invalidSlot) ∧
    RetrieveHighestProposal (SaveHighestProposal s (some pk) 100).1 (some pk)
      = ⟨100, true, none⟩ := by
  constructor
  · rfl
  · simp [SaveHighestProposal, RetrieveHighestProposal, objPfx, dbGet_set_same,
      sszMarshalUint64, sszUnmarshallUint64]

theorem saveVI_found (s : RegStorage) (vi info : ValidatorInformation)
    (hfound : getValidatorInformationNotSafe s vi.publicKey = some info) :
    SaveValidatorInformation s vi = ⟨s, { vi with index := info.index }, false⟩ := by
  simp [SaveValidatorInformation, hfound]

theorem saveVI_fresh (s : RegStorage) (vi : ValidatorInformation)
    (hfresh : getValidatorInformationNotSafe s vi.publicKey = none) :
    SaveValidatorInformation s vi
      = ⟨{ validators := (validatorKey vi.publicKey, { vi with index := s.counter }) :: s.validators,
           counter := s.counter + 1 },
         { vi with index := s.counter }, false⟩ := by
  simp [SaveValidatorInformation, hfresh, saveValidatorNotSafe, nextIndex]

/-- Claim C6: SaveValidatorInformation is idempotent on public key — under
the counter invariant, saving a fresh public key and then saving the same
public key again yields the same index both times (the index assigned at
first save is never reassigned), the assigned index is strictly larger than
every previously assigned index, and the invariant is preserved. -/
theorem saveValidatorInformation_idempotent_monotone (s : RegStorage)
    (vi vi2 : ValidatorInformation)
    (hInv : ∀ kv ∈ s.validators, kv.2.index < s.counter)
    (hfresh : getValidatorInformationNotSafe s vi.publicKey = none)
    (hsame : vi2.publicKey = vi.publicKey) :
    (SaveValidatorInformation (SaveValidatorInformation s vi).state vi2).arg.index
      = (SaveValidatorInformation s vi).arg.index ∧
    (∀ kv ∈ s.validators, kv.2.index < (SaveValidatorInformation s vi).arg.index) ∧
    (∀ kv ∈ (SaveValidatorInformation s vi).state.validators,
        kv.2.index < (SaveValidatorInformation s vi).state.counter) := by
  rw [saveVI_fresh s vi hfresh]
  dsimp only
  refine ⟨?_, ?_, ?_⟩
  · have hget : getValidatorInformationNotSafe
        ({ validators := (validatorKey vi.publicKey, { vi with index := s.counter }) :: s.validators,
           counter := s.counter + 1 } : RegStorage) vi2.publicKey
        = some { vi with index := s.counter } := by
      simp [getValidatorInformationNotSafe, regGet, hsame]
    rw [saveVI_found _ _ _ hget]
  · exact fun kv hkv => hInv kv hkv
  · intro kv hkv
    rcases List.mem_cons.mp hkv with hh | hh
    · simp [hh]
    · have := hInv kv hh
      omega

/-- Claim C6, witness: saving public key [1] into an empty store assigns
index 0, and saving the same public key again (with a different operators
list) yields index 0 again. -/
theorem saveValidatorInformation_idempotent_monotone_witness :
    (∀ kv ∈ (⟨[], 0⟩ : RegStorage).validators, kv.2.index < (0 : Int)) ∧
    getValidatorInformationNotSafe ⟨[], 0⟩ (⟨0, [1], []⟩ : ValidatorInformation).publicKey = none ∧
    (⟨7, [1], [⟨2, [3]⟩]⟩ : ValidatorInformation).publicKey
      = (⟨0, [1], []⟩ : ValidatorInformation).publicKey ∧
    ((SaveValidatorInformation (SaveValidatorInformation ⟨[], 0⟩ ⟨0, [1], []⟩).state
        ⟨7, [1], [⟨2, [3]⟩]⟩).arg.index
      = (SaveValidatorInformation ⟨[], 0⟩ ⟨0, [1], []⟩).arg.index ∧
    (∀ kv ∈ (⟨[], 0⟩ : RegStorage).validators,
        kv.2.index < (SaveValidatorInformation ⟨[], 0⟩ ⟨0, [1], []⟩).arg.index) ∧
    (∀ kv ∈ (SaveValidatorInformation ⟨[], 0⟩ ⟨0, [1], []⟩).state.validators,
        kv.2.index < (SaveValidatorInformation ⟨[], 0⟩ ⟨0, [1], []⟩).state.counter)) :=
  ⟨by decide, by decide, by decide,
    saveValidatorInformation_idempotent_monotone ⟨[], 0⟩ ⟨0, [1], []⟩ ⟨7, [1], [⟨2, [3]⟩]⟩
      (by decide) (by decide) (by decide)⟩

/-- Claim C7: ListValidators(from, 0) returns exactly the stored records with
index at least from (indices being int64, thus at most maxInt64), and
ListValidators(from, to) with to positive returns exactly the records with
from ≤ index ≤ to. -/
theorem listValidators_range (s : RegStorage) (fromIdx toIdx : Int)
    (hbound : ∀ kv ∈ s.validators, kv.2.index ≤ maxInt64) :
    ListValidators s fromIdx 0
      = (s.validators.map Prod.snd).filter (fun vi => decide (fromIdx ≤ vi.index)) ∧
    (0 < toIdx →
      ListValidators s fromIdx toIdx
        = (s.validators.map Prod.snd).filter
            (fun vi => decide (fromIdx ≤ vi.index) && decide (vi.index ≤ toIdx))) := by
  constructor
  · simp only [ListValidators, normalTo, if_pos rfl]
    apply List.filter_congr
    intro vi hvi
    obtain ⟨kv, hkv, rfl⟩ := List.mem_map.mp hvi
    have hb := hbound kv hkv
    simp [hb]
  · intro ht
    simp only [ListValidators, normalTo, if_neg (show toIdx ≠ 0 by omega)]

/-- Claim C7, witness: a store with indices 0 and 1, queried with from = 1
and to = 0 or to = 1. -/
theorem listValidators_range_witness :
    (∀ kv ∈ (⟨[(validatorKey [1], ⟨0, [1], []⟩), (validatorKey [2], ⟨1, [2], []⟩)], 2⟩
        : RegStorage).validators, kv.2.index ≤ maxInt64) ∧
    (ListValidators ⟨[(validatorKey [1], ⟨0, [1], []⟩), (validatorKey [2], ⟨1, [2], []⟩)], 2⟩ 1 0
      = (((⟨[(validatorKey [1], ⟨0, [1], []⟩), (validatorKey [2], ⟨1, [2], []⟩)], 2⟩
          : RegStorage).validators).map Prod.snd).filter (fun vi => decide ((1 : Int) ≤ vi.index)) ∧
    ((0 : Int) < 1 →
      ListValidators ⟨[(validatorKey [1], ⟨0, [1], []⟩), (validatorKey [2], ⟨1, [2], []⟩)], 2⟩ 1 1
        = (((⟨[(validatorKey [1], ⟨0, [1], []⟩), (validatorKey [2], ⟨1, [2], []⟩)], 2⟩
            : RegStorage).validators).map Prod.snd).filter
              (fun vi => decide ((1 : Int) ≤ vi.index) && decide (vi.index ≤ (1 : Int))))) :=
  ⟨by decide,
    listValidators_range ⟨[(validatorKey [1], ⟨0, [1], []⟩), (validatorKey [2], ⟨1, [2], []⟩)], 2⟩
      1 1 (by decide)⟩

/-- Claim C8, counterexample: the Controllers map built at validator
construction holds only the attester controller, so ControllerForIdentifier
on a proposer identifier returns nil — the claim that every supported duty
role has a controller is false on the code. -/
theorem controllerForIdentifier_proposer_nil :
    ControllerForIdentifier (setupIbfts [7]) ⟨[7], RoleType.proposer⟩ = none := rfl

/-- Claim C8 (amended): the Controllers map built at validator construction
contains exactly one controller, for the attester role: ControllerForIdentifier
returns a non-nil handle on attester identifiers and nil on identifiers of
every other role. -/
theorem controllers_attester_only (pk : Bytes) (identifier : Identifier)
    (h : identifier.GetRoleType ≠ RoleType.attester) :
    ControllerForIdentifier (setupIbfts pk) ⟨pk, RoleType.attester⟩
      = some (setupIbftController RoleType.attester pk) ∧
    ControllerForIdentifier (setupIbfts pk) identifier = none := by
  refine ⟨rfl, ?_⟩
  simp only [ControllerForIdentifier, setupIbfts, ctrlLookup]
  rw [if_neg (fun he => h he.symm)]

/-- Claim C8 (amended), witness: the attester identifier resolves, the
aggregator identifier does not. -/
theorem controllers_attester_only_witness :
    (⟨[7], RoleType.aggregator⟩ : Identifier).GetRoleType ≠ RoleType.attester ∧
    (ControllerForIdentifier (setupIbfts [7]) ⟨[7], RoleType.attester⟩
      = some (setupIbftController RoleType.attester [7]) ∧
    ControllerForIdentifier (setupIbfts [7]) ⟨[7], RoleType.aggregator⟩ = none) :=
  ⟨by decide, controllers_attester_only [7] ⟨[7], RoleType.aggregator⟩ (by decide)⟩

/-- Claim C9: SaveValidatorInformation on an already-present public key
returns nil without any database write — the store state (records and
counter) is unchanged, and the only effect is that the argument's Index
field is overwritten with the previously stored index. -/
theorem saveValidatorInformation_existing_no_write (s : RegStorage)
    (vi info : ValidatorInformation)
    (hfound : getValidatorInformationNotSafe s vi.publicKey = some info) :
    SaveValidatorInformation s vi = ⟨s, { vi with index := info.index }, false⟩ :=
  saveVI_found s vi info hfound

/-- Claim C9, witness: re-saving public key [1], stored with index 4, with a
new operators list leaves the store untouched and rewrites only the
argument's index. -/
theorem saveValidatorInformation_existing_no_write_witness :
    getValidatorInformationNotSafe ⟨[(validatorKey [1], ⟨4, [1], []⟩)], 5⟩
        (⟨0, [1], [⟨2, [3]⟩]⟩ : ValidatorInformation).publicKey = some ⟨4, [1], []⟩ ∧
    SaveValidatorInformation ⟨[(validatorKey [1], ⟨4, [1], []⟩)], 5⟩ ⟨0, [1], [⟨2, [3]⟩]⟩
      = ⟨⟨[(validatorKey [1], ⟨4, [1], []⟩)], 5⟩, ⟨4, [1], [⟨2, [3]⟩]⟩, false⟩ :=
  ⟨by decide, saveValidatorInformation_existing_no_write ⟨[(validatorKey [1], ⟨4, [1], []⟩)], 5⟩
    ⟨0, [1], [⟨2, [3]⟩]⟩ ⟨4, [1], []⟩ (by decide)⟩

/-- Claim C10: decrypt is total — on every input shorter than the AES-GCM
nonce size it returns the "malformed ciphertext" error through the explicit
length guard, rather than panicking on the nonce/ciphertext slicing. -/
theorem decrypt_short_input_malformed (data passphrase : Bytes)
    (h : data.length < gcmNonceSize) :
    decrypt data passphrase = Except.error StoreErr.malformedCiphertext := by
  simp [decrypt, if_pos h]

/-- Claim C10, witness: a 3-byte input is rejected as malformed. -/
theorem decrypt_short_input_malformed_witness :
    ([1, 2, 3] : Bytes).length < gcmNonceSize ∧
    decrypt [1, 2, 3] [5] = Except.error StoreErr.malformedCiphertext :=
  ⟨by decide, decrypt_short_input_malformed [1, 2, 3] [5] (by decide)⟩
